import Mathlib

/-!
# Verification of the melt-challenge app's lifecycle and validation logic

A shallow embedding of the TypeScript source of the weight-loss challenge
Shopify app.  Conventions used throughout:

* Dates (`Date` values and Prisma `DateTime` columns) are integer millisecond
  timestamps (`Int`); an unparseable date (`NaN` from `new Date(...)`) is `none`.
* JavaScript `number` values (weights, file sizes, photo order) are rationals
  (`Rat`); the result of `parseFloat` on a string is `Option Rat`, with `none`
  standing for `NaN`.
* The Prisma store is a `DB` structure of lists of rows, one list per table;
  `findFirst` with an `orderBy` is modelled as the first row, in table order,
  that attains the requested extremum (Prisma sorts stably).
* Fallible external collaborators (Shopify session, customer lookup) are
  passed in as `Option`-valued environment parameters: `none` models the
  lookup throwing or finding nothing, which the source catches and ignores.
-/

namespace MeltChallenge

/-- Participant lifecycle status (Prisma enum `ParticipantStatus`). -/
inductive ParticipantStatus where
  | NOT_STARTED
  | IN_PROGRESS
  | COMPLETED
deriving DecidableEq, Repr

/-- Submission type (Prisma enum `SubmissionType`). -/
inductive SubmissionType where
  | START
  | END
deriving DecidableEq, Repr

/-- A row of the `Challenge` table. -/
structure Challenge where
  id : Nat
  shop : String
  name : String
  description : Option String
  startDate : Int
  endDate : Int
  isActive : Bool
deriving DecidableEq, Repr

/-- A row of the `Participant` table. -/
structure Participant where
  id : Nat
  challengeId : Nat
  shop : String
  customerId : String
  email : String
  firstName : Option String
  lastName : Option String
  status : ParticipantStatus
  startWeight : Option Rat
  endWeight : Option Rat
  startedAt : Option Int
  completedAt : Option Int
  ordersCount : Option Int
  totalSpent : Option Rat
  createdAt : Int
deriving DecidableEq, Repr

/-- A row of the `Submission` table. -/
structure Submission where
  id : Nat
  participantId : Nat
  shop : String
  type : SubmissionType
  weight : Rat
  submittedAt : Int
deriving DecidableEq, Repr

/-- A row of the `Photo` table (autogenerated id and upload status omitted:
no code under scrutiny reads them). -/
structure Photo where
  submissionId : Nat
  shop : String
  shopifyUrl : String
  fileName : String
  fileSize : Rat
  mimeType : String
  order : Rat
  orientation : String
deriving DecidableEq, Repr

/-- The Prisma store: one list per table, plus a counter supplying fresh ids. -/
structure DB where
  challenges : List Challenge
  participants : List Participant
  submissions : List Submission
  photos : List Photo
  nextId : Nat
deriving DecidableEq, Repr

/-- The `where` clause of the first query of `getActiveChallenge`
(challenge.server): same shop, `isActive`, `startDate <= now <= endDate`. -/
def ongoingFor (now : Int) (shop : String) (c : Challenge) : Bool :=
  c.shop == shop && c.isActive && decide (c.startDate ≤ now) && decide (now ≤ c.endDate)

/-- The `where` clause of the fallback query of `getActiveChallenge`:
same shop, `isActive`, `startDate > now`. -/
def upcomingFor (now : Int) (shop : String) (c : Challenge) : Bool :=
  c.shop == shop && c.isActive && decide (now < c.startDate)

/-- Prisma `findFirst` with `orderBy startDate desc`: the first row in table
order whose `startDate` is maximal (Prisma sorts stably, so ties keep table
order). -/
def firstByStartDateDesc : List Challenge → Option Challenge
  | [] => none
  | c :: cs =>
    match firstByStartDateDesc cs with
    | none => some c
    | some b => if c.startDate < b.startDate then some b else some c

/-- Prisma `findFirst` with `orderBy startDate asc`: the first row in table
order whose `startDate` is minimal. -/
def firstByStartDateAsc : List Challenge → Option Challenge
  | [] => none
  | c :: cs =>
    match firstByStartDateAsc cs with
    | none => some c
    | some b => if b.startDate < c.startDate then some b else some c

/-- `getActiveChallenge(shop)` from challenge.server: the ongoing active
challenge with the latest `startDate`, else the upcoming active challenge with
the earliest `startDate`, else `null`. -/
def getActiveChallenge (db : DB) (now : Int) (shop : String) : Option Challenge :=
  match firstByStartDateDesc (db.challenges.filter (ongoingFor now shop)) with
  | some c => some c
  | none => firstByStartDateAsc (db.challenges.filter (upcomingFor now shop))

theorem firstByStartDateDesc_eq_none {l : List Challenge} :
    firstByStartDateDesc l = none ↔ l = [] := by
  cases l with
  | nil => simp [firstByStartDateDesc]
  | cons c cs =>
    simp only [firstByStartDateDesc]
    cases h : firstByStartDateDesc cs <;> simp
    split <;> simp

theorem firstByStartDateAsc_eq_none {l : List Challenge} :
    firstByStartDateAsc l = none ↔ l = [] := by
  cases l with
  | nil => simp [firstByStartDateAsc]
  | cons c cs =>
    simp only [firstByStartDateAsc]
    cases h : firstByStartDateAsc cs <;> simp
    split <;> simp

theorem firstByStartDateDesc_spec :
    ∀ (l : List Challenge) (c : Challenge), firstByStartDateDesc l = some c →
      c ∈ l ∧ ∀ c' ∈ l, c'.startDate ≤ c.startDate := by
  intro l
  induction l with
  | nil => intro c h; simp [firstByStartDateDesc] at h
  | cons a l ih =>
    intro c h
    simp only [firstByStartDateDesc] at h
    cases hl : firstByStartDateDesc l with
    | none =>
      rw [hl] at h
      obtain rfl : a = c := by simpa using h
      have : l = [] := firstByStartDateDesc_eq_none.mp hl
      subst this
      simp
    | some b =>
      rw [hl] at h
      obtain ⟨hb, hmax⟩ := ih b hl
      by_cases hab : a.startDate < b.startDate
      · obtain rfl : b = c := by simpa [hab] using h
        refine ⟨List.mem_cons_of_mem _ hb, ?_⟩
        intro c' hc'
        rcases List.mem_cons.mp hc' with h' | h'
        · subst h'; exact le_of_lt hab
        · exact hmax c' h'
      · obtain rfl : a = c := by simpa [hab] using h
        refine ⟨List.mem_cons_self _ _, ?_⟩
        intro c' hc'
        rcases List.mem_cons.mp hc' with h' | h'
        · subst h'; exact le_refl _
        · exact le_trans (hmax c' h') (not_lt.mp hab)

theorem firstByStartDateAsc_spec :
    ∀ (l : List Challenge) (c : Challenge), firstByStartDateAsc l = some c →
      c ∈ l ∧ ∀ c' ∈ l, c.startDate ≤ c'.startDate := by
  intro l
  induction l with
  | nil => intro c h; simp [firstByStartDateAsc] at h
  | cons a l ih =>
    intro c h
    simp only [firstByStartDateAsc] at h
    cases hl : firstByStartDateAsc l with
    | none =>
      rw [hl] at h
      obtain rfl : a = c := by simpa using h
      have : l = [] := firstByStartDateAsc_eq_none.mp hl
      subst this
      simp
    | some b =>
      rw [hl] at h
      obtain ⟨hb, hmin⟩ := ih b hl
      by_cases hab : b.startDate < a.startDate
      · obtain rfl : b = c := by simpa [hab] using h
        refine ⟨List.mem_cons_of_mem _ hb, ?_⟩
        intro c' hc'
        rcases List.mem_cons.mp hc' with h' | h'
        · subst h'; exact le_of_lt hab
        · exact hmin c' h'
      · obtain rfl : a = c := by simpa [hab] using h
        refine ⟨List.mem_cons_self _ _, ?_⟩
        intro c' hc'
        rcases List.mem_cons.mp hc' with h' | h'
        · subst h'; exact le_refl _
        · exact le_trans (not_lt.mp hab) (hmin c' h')

/-- C2: `getActiveChallenge` returns an active challenge whose window contains
`now`, with the latest `startDate` among those, when one exists; otherwise the
active upcoming challenge with the earliest `startDate`; otherwise `none`. -/
theorem getActiveChallenge_spec (db : DB) (now : Int) (shop : String) :
    ((∃ c ∈ db.challenges, ongoingFor now shop c = true) →
      ∃ c, getActiveChallenge db now shop = some c ∧ c ∈ db.challenges ∧
        ongoingFor now shop c = true ∧
        ∀ c' ∈ db.challenges, ongoingFor now shop c' = true →
          c'.startDate ≤ c.startDate) ∧
    ((∀ c ∈ db.challenges, ongoingFor now shop c = false) →
      (∃ c ∈ db.challenges, upcomingFor now shop c = true) →
      ∃ c, getActiveChallenge db now shop = some c ∧ c ∈ db.challenges ∧
        upcomingFor now shop c = true ∧
        ∀ c' ∈ db.challenges, upcomingFor now shop c' = true →
          c.startDate ≤ c'.startDate) ∧
    ((∀ c ∈ db.challenges, ongoingFor now shop c = false ∧
        upcomingFor now shop c = false) →
      getActiveChallenge db now shop = none) := by
  refine ⟨?_, ?_, ?_⟩
  · rintro ⟨c₀, hc₀, hongoing⟩
    have hmem : c₀ ∈ db.challenges.filter (ongoingFor now shop) :=
      List.mem_filter.mpr ⟨hc₀, hongoing⟩
    cases hfind : firstByStartDateDesc (db.challenges.filter (ongoingFor now shop)) with
    | none =>
      rw [firstByStartDateDesc_eq_none.mp hfind] at hmem
      simp at hmem
    | some c =>
      obtain ⟨hcf, hmax⟩ := firstByStartDateDesc_spec _ c hfind
      refine ⟨c, ?_, (List.mem_filter.mp hcf).1, (List.mem_filter.mp hcf).2, ?_⟩
      · simp [getActiveChallenge, hfind]
      · intro c' hc' h'
        exact hmax c' (List.mem_filter.mpr ⟨hc', h'⟩)
  · intro hno
    rintro ⟨c₀, hc₀, hupcoming⟩
    have hfilter : db.challenges.filter (ongoingFor now shop) = [] := by
      apply List.filter_eq_nil_iff.mpr
      intro c hc
      simp [hno c hc]
    have hmem : c₀ ∈ db.challenges.filter (upcomingFor now shop) :=
      List.mem_filter.mpr ⟨hc₀, hupcoming⟩
    cases hfind : firstByStartDateAsc (db.challenges.filter (upcomingFor now shop)) with
    | none =>
      rw [firstByStartDateAsc_eq_none.mp hfind] at hmem
      simp at hmem
    | some c =>
      obtain ⟨hcf, hmin⟩ := firstByStartDateAsc_spec _ c hfind
      refine ⟨c, ?_, (List.mem_filter.mp hcf).1, (List.mem_filter.mp hcf).2, ?_⟩
      · simp [getActiveChallenge, hfilter, firstByStartDateDesc, hfind]
      · intro c' hc' h'
        exact hmin c' (List.mem_filter.mpr ⟨hc', h'⟩)
  · intro hno
    have h1 : db.challenges.filter (ongoingFor now shop) = [] := by
      apply List.filter_eq_nil_iff.mpr
      intro c hc
      simp [(hno c hc).1]
    have h2 : db.challenges.filter (upcomingFor now shop) = [] := by
      apply List.filter_eq_nil_iff.mpr
      intro c hc
      simp [(hno c hc).2]
    simp [getActiveChallenge, h1, h2, firstByStartDateDesc, firstByStartDateAsc]

/-- Prisma `findUnique` on the `(challengeId, customerId)` unique key. -/
def findParticipant (db : DB) (challengeId : Nat) (customerId : String) :
    Option Participant :=
  db.participants.find? (fun p => p.challengeId == challengeId && p.customerId == customerId)

/-- The submissions related to a participant (the `include: submissions`
relation load). -/
def participantSubmissions (db : DB) (participantId : Nat) : List Submission :=
  db.submissions.filter (fun s => s.participantId == participantId)

/-- Result shape of `canStartChallenge`: `{ canStart, reason?, participant? }`. -/
structure StartEligibility where
  canStart : Bool
  reason : Option String
  participant : Option Participant
deriving DecidableEq, Repr

/-- Result shape of `canEndChallenge`: `{ canEnd, reason?, participant? }`. -/
structure EndEligibility where
  canEnd : Bool
  reason : Option String
  participant : Option Participant
deriving DecidableEq, Repr

/-- `canStartChallenge(shop, customerId)` from challenge.server. -/
def canStartChallenge (db : DB) (now : Int) (shop customerId : String) :
    StartEligibility :=
  match getActiveChallenge db now shop with
  | none =>
    { canStart := false, reason := some "No active challenge available", participant := none }
  | some challenge =>
    match findParticipant db challenge.id customerId with
    | none => { canStart := true, reason := none, participant := none }
    | some participant =>
      let startSubs := (participantSubmissions db participant.id).filter
        (fun s => s.type == SubmissionType.START)
      if participant.status ≠ ParticipantStatus.NOT_STARTED ∨ 0 < startSubs.length then
        { canStart := false, reason := some "You have already started this challenge",
          participant := some participant }
      else
        { canStart := true, reason := none, participant := some participant }

/-- `canEndChallenge(shop, customerId)` from challenge.server. -/
def canEndChallenge (db : DB) (now : Int) (shop customerId : String) :
    EndEligibility :=
  match getActiveChallenge db now shop with
  | none =>
    { canEnd := false, reason := some "No active challenge available", participant := none }
  | some challenge =>
    match findParticipant db challenge.id customerId with
    | none =>
      { canEnd := false, reason := some "You must start the challenge first",
        participant := none }
    | some participant =>
      let subs := participantSubmissions db participant.id
      if subs.any (fun s => s.type == SubmissionType.START) = false then
        { canEnd := false, reason := some "You must complete the start form first",
          participant := some participant }
      else if subs.any (fun s => s.type == SubmissionType.END) = true then
        { canEnd := false, reason := some "You have already completed this challenge",
          participant := some participant }
      else
        { canEnd := true, reason := none, participant := some participant }

/-- `getOrCreateParticipant(shop, customerId, email, firstName?, lastName?)`
from challenge.server, with the store threaded explicitly.  The created row
gets the store's fresh id and a `createdAt` of `now` (Prisma autofills both). -/
def freshParticipant (db : DB) (now : Int) (shop customerId email : String)
    (firstName lastName : Option String) (challengeId : Nat) : Participant :=
  { id := db.nextId, challengeId := challengeId, shop := shop,
    customerId := customerId, email := email, firstName := firstName,
    lastName := lastName, status := ParticipantStatus.NOT_STARTED,
    startWeight := none, endWeight := none, startedAt := none,
    completedAt := none, ordersCount := none, totalSpent := none,
    createdAt := now }

def getOrCreateParticipant (db : DB) (now : Int) (shop customerId email : String)
    (firstName lastName : Option String) : Option Participant × DB :=
  match getActiveChallenge db now shop with
  | none => (none, db)
  | some challenge =>
    match findParticipant db challenge.id customerId with
    | some participant => (some participant, db)
    | none =>
      let participant :=
        freshParticipant db now shop customerId email firstName lastName challenge.id
      (some participant,
       { db with participants := db.participants ++ [participant],
                 nextId := db.nextId + 1 })

theorem getActiveChallenge_congr (db db' : DB) (h : db'.challenges = db.challenges)
    (now : Int) (shop : String) :
    getActiveChallenge db' now shop = getActiveChallenge db now shop := by
  unfold getActiveChallenge
  rw [h]

theorem find?_append_of_none {α : Type} {l₁ : List α} (l₂ : List α) {p : α → Bool}
    (h : l₁.find? p = none) : (l₁ ++ l₂).find? p = l₂.find? p := by
  induction l₁ with
  | nil => simp
  | cons a l ih =>
    cases hp : p a with
    | true =>
      rw [List.find?_cons_of_pos _ hp] at h
      simp at h
    | false =>
      rw [List.find?_cons_of_neg _ (by simp [hp])] at h
      rw [List.cons_append, List.find?_cons_of_neg _ (by simp [hp])]
      exact ih h

/-- C1: when an active challenge and a participant row both exist,
`canStartChallenge` is eligible exactly when the status is `NOT_STARTED` and
no START submission exists, and in every other case answers
"You have already started this challenge". -/
theorem canStartChallenge_spec (db : DB) (now : Int) (shop customerId : String)
    (ch : Challenge) (p : Participant)
    (hch : getActiveChallenge db now shop = some ch)
    (hp : findParticipant db ch.id customerId = some p) :
    ((canStartChallenge db now shop customerId).canStart = true ↔
      (p.status = ParticipantStatus.NOT_STARTED ∧
        (participantSubmissions db p.id).filter
          (fun s => s.type == SubmissionType.START) = [])) ∧
    ((p.status ≠ ParticipantStatus.NOT_STARTED ∨
        (participantSubmissions db p.id).filter
          (fun s => s.type == SubmissionType.START) ≠ []) →
      canStartChallenge db now shop customerId =
        { canStart := false, reason := some "You have already started this challenge",
          participant := some p }) := by
  have hunfold : canStartChallenge db now shop customerId =
      (if p.status ≠ ParticipantStatus.NOT_STARTED ∨
          0 < ((participantSubmissions db p.id).filter
            (fun s => s.type == SubmissionType.START)).length then
        { canStart := false, reason := some "You have already started this challenge",
          participant := some p }
      else
        { canStart := true, reason := none, participant := some p }) := by
    simp only [canStartChallenge, hch, hp]
  constructor
  · rw [hunfold]
    by_cases hcond : p.status ≠ ParticipantStatus.NOT_STARTED ∨
        0 < ((participantSubmissions db p.id).filter
          (fun s => s.type == SubmissionType.START)).length
    · simp only [if_pos hcond]
      constructor
      · intro h; cases h
      · rintro ⟨hstat, hsubs⟩
        rcases hcond with h | h
        · exact absurd hstat h
        · rw [hsubs] at h; simp at h
    · simp only [if_neg hcond]
      push_neg at hcond
      obtain ⟨hstat, hlen⟩ := hcond
      simp only [true_iff]
      refine ⟨hstat, ?_⟩
      exact List.length_eq_zero.mp (Nat.le_antisymm hlen (Nat.zero_le _))
  · intro h
    rw [hunfold, if_pos]
    rcases h with h | h
    · exact Or.inl h
    · exact Or.inr (List.length_pos.mpr h)

/-- C3: with an active challenge present, `canEndChallenge` answers, in this
precedence: missing participant, then missing START submission, then already
existing END submission, then eligible; the missing-participant case returns a
result rather than throwing. -/
theorem canEndChallenge_spec (db : DB) (now : Int) (shop customerId : String)
    (ch : Challenge) (hch : getActiveChallenge db now shop = some ch) :
    (findParticipant db ch.id customerId = none →
      canEndChallenge db now shop customerId =
        { canEnd := false, reason := some "You must start the challenge first",
          participant := none }) ∧
    (∀ p, findParticipant db ch.id customerId = some p →
      ((participantSubmissions db p.id).any
          (fun s => s.type == SubmissionType.START) = false →
        canEndChallenge db now shop customerId =
          { canEnd := false, reason := some "You must complete the start form first",
            participant := some p }) ∧
      ((participantSubmissions db p.id).any
          (fun s => s.type == SubmissionType.START) = true →
        (participantSubmissions db p.id).any
          (fun s => s.type == SubmissionType.END) = true →
        canEndChallenge db now shop customerId =
          { canEnd := false, reason := some "You have already completed this challenge",
            participant := some p }) ∧
      ((participantSubmissions db p.id).any
          (fun s => s.type == SubmissionType.START) = true →
        (participantSubmissions db p.id).any
          (fun s => s.type == SubmissionType.END) = false →
        canEndChallenge db now shop customerId =
          { canEnd := true, reason := none, participant := some p })) := by
  constructor
  · intro hp
    simp only [canEndChallenge, hch, hp]
  · intro p hp
    refine ⟨?_, ?_, ?_⟩
    · intro hstart
      simp only [canEndChallenge, hch, hp]
      simp [hstart]
    · intro hstart hend
      simp only [canEndChallenge, hch, hp]
      simp [hstart, hend]
    · intro hstart hend
      simp only [canEndChallenge, hch, hp]
      simp [hstart, hend]

/-- C6: when no challenge of the shop is ongoing-active or upcoming-active,
`getActiveChallenge` returns `none` and both eligibility checks fail with
"No active challenge available" for every customer. -/
theorem noActiveChallenge_spec (db : DB) (now : Int) (shop : String)
    (h : ∀ c ∈ db.challenges, ongoingFor now shop c = false ∧
      upcomingFor now shop c = false) :
    getActiveChallenge db now shop = none ∧
    ∀ customerId,
      canStartChallenge db now shop customerId =
        { canStart := false, reason := some "No active challenge available",
          participant := none } ∧
      canEndChallenge db now shop customerId =
        { canEnd := false, reason := some "No active challenge available",
          participant := none } := by
  have hnone : getActiveChallenge db now shop = none :=
    (getActiveChallenge_spec db now shop).2.2 h
  refine ⟨hnone, ?_⟩
  intro customerId
  constructor
  · simp only [canStartChallenge, hnone]
  · simp only [canEndChallenge, hnone]

/-- C5: with an active challenge and no pre-existing participant row, calling
`getOrCreateParticipant` twice for the same `(challengeId, customerId)` pair
returns the same row both times, creates exactly one row, and the second call
does not overwrite the stored email or names even when given different values. -/
theorem getOrCreateParticipant_idempotent (db : DB) (now : Int)
    (shop customerId email email2 : String) (fn ln fn2 ln2 : Option String)
    (ch : Challenge)
    (hch : getActiveChallenge db now shop = some ch)
    (hnew : findParticipant db ch.id customerId = none) :
    ∃ p,
      (getOrCreateParticipant db now shop customerId email fn ln).1 = some p ∧
      (getOrCreateParticipant db now shop customerId email fn ln).2.participants =
        db.participants ++ [p] ∧
      p.email = email ∧ p.firstName = fn ∧ p.lastName = ln ∧
      p.challengeId = ch.id ∧ p.customerId = customerId ∧
      getOrCreateParticipant
          (getOrCreateParticipant db now shop customerId email fn ln).2
          now shop customerId email2 fn2 ln2 =
        (some p, (getOrCreateParticipant db now shop customerId email fn ln).2) := by
  refine ⟨freshParticipant db now shop customerId email fn ln ch.id,
    ?_, ?_, rfl, rfl, rfl, rfl, rfl, ?_⟩
  · simp only [getOrCreateParticipant, hch, hnew]
  · simp only [getOrCreateParticipant, hch, hnew]
  · have hdb1 : (getOrCreateParticipant db now shop customerId email fn ln).2 =
        { db with
            participants := db.participants ++
              [freshParticipant db now shop customerId email fn ln ch.id],
            nextId := db.nextId + 1 } := by
      simp only [getOrCreateParticipant, hch, hnew]
    rw [hdb1]
    have hch2 : getActiveChallenge
        { db with
            participants := db.participants ++
              [freshParticipant db now shop customerId email fn ln ch.id],
            nextId := db.nextId + 1 } now shop = some ch := by
      rw [getActiveChallenge_congr db
        { db with
            participants := db.participants ++
              [freshParticipant db now shop customerId email fn ln ch.id],
            nextId := db.nextId + 1 } rfl now shop]
      exact hch
    have hfind2 : findParticipant
        { db with
            participants := db.participants ++
              [freshParticipant db now shop customerId email fn ln ch.id],
            nextId := db.nextId + 1 } ch.id customerId =
        some (freshParticipant db now shop customerId email fn ln ch.id) := by
      unfold findParticipant at hnew ⊢
      simp only
      rw [find?_append_of_none _ hnew]
      simp [freshParticipant]
    simp only [getOrCreateParticipant, hch2, hfind2]

/-- A concrete active challenge used to exercise the theorems above. -/
def demoChallenge : Challenge :=
  { id := 1, shop := "shop1", name := "Summer Melt", description := none,
    startDate := 0, endDate := 200, isActive := true }

def c2DB : DB :=
  { challenges := [demoChallenge], participants := [], submissions := [],
    photos := [], nextId := 10 }

theorem getActiveChallenge_spec_witness :
    (∃ c ∈ c2DB.challenges, ongoingFor 100 "shop1" c = true) ∧
    (∃ c, getActiveChallenge c2DB 100 "shop1" = some c ∧ c ∈ c2DB.challenges ∧
      ongoingFor 100 "shop1" c = true ∧
      ∀ c' ∈ c2DB.challenges, ongoingFor 100 "shop1" c' = true →
        c'.startDate ≤ c.startDate) :=
  ⟨⟨demoChallenge, by simp [c2DB], by decide⟩,
   (getActiveChallenge_spec c2DB 100 "shop1").1
     ⟨demoChallenge, by simp [c2DB], by decide⟩⟩

def c1Participant : Participant :=
  { id := 2, challengeId := 1, shop := "shop1", customerId := "cust1",
    email := "ada@example.com", firstName := some "Ada", lastName := some "L",
    status := ParticipantStatus.NOT_STARTED, startWeight := none,
    endWeight := none, startedAt := none, completedAt := none,
    ordersCount := none, totalSpent := none, createdAt := 50 }

def c1DB : DB :=
  { challenges := [demoChallenge], participants := [c1Participant],
    submissions := [], photos := [], nextId := 10 }

theorem canStartChallenge_spec_witness :
    getActiveChallenge c1DB 100 "shop1" = some demoChallenge ∧
    findParticipant c1DB demoChallenge.id "cust1" = some c1Participant ∧
    (canStartChallenge c1DB 100 "shop1" "cust1").canStart = true :=
  ⟨rfl, rfl,
   (canStartChallenge_spec c1DB 100 "shop1" "cust1" demoChallenge c1Participant
     rfl rfl).1.mpr ⟨rfl, rfl⟩⟩

def c3Participant : Participant :=
  { id := 3, challengeId := 1, shop := "shop1", customerId := "cust3",
    email := "bob@example.com", firstName := some "Bob", lastName := some "M",
    status := ParticipantStatus.IN_PROGRESS, startWeight := some 200,
    endWeight := none, startedAt := some 60, completedAt := none,
    ordersCount := none, totalSpent := none, createdAt := 50 }

def c3Submission : Submission :=
  { id := 4, participantId := 3, shop := "shop1", type := SubmissionType.START,
    weight := 200, submittedAt := 60 }

def c3DB : DB :=
  { challenges := [demoChallenge], participants := [c3Participant],
    submissions := [c3Submission], photos := [], nextId := 10 }

theorem canEndChallenge_spec_witness :
    getActiveChallenge c3DB 100 "shop1" = some demoChallenge ∧
    findParticipant c3DB demoChallenge.id "cust3" = some c3Participant ∧
    (participantSubmissions c3DB c3Participant.id).any
      (fun s => s.type == SubmissionType.START) = true ∧
    (participantSubmissions c3DB c3Participant.id).any
      (fun s => s.type == SubmissionType.END) = false ∧
    canEndChallenge c3DB 100 "shop1" "cust3" =
      { canEnd := true, reason := none, participant := some c3Participant } :=
  ⟨rfl, rfl, rfl, rfl,
   (((canEndChallenge_spec c3DB 100 "shop1" "cust3" demoChallenge rfl).2
     c3Participant rfl).2.2) rfl rfl⟩

def c6DB : DB :=
  { challenges := [], participants := [], submissions := [], photos := [],
    nextId := 1 }

theorem noActiveChallenge_spec_witness :
    getActiveChallenge c6DB 100 "shop1" = none ∧
    canStartChallenge c6DB 100 "shop1" "cust6" =
      { canStart := false, reason := some "No active challenge available",
        participant := none } ∧
    canEndChallenge c6DB 100 "shop1" "cust6" =
      { canEnd := false, reason := some "No active challenge available",
        participant := none } :=
  ⟨(noActiveChallenge_spec c6DB 100 "shop1" (by simp [c6DB])).1,
   ((noActiveChallenge_spec c6DB 100 "shop1" (by simp [c6DB])).2 "cust6").1,
   ((noActiveChallenge_spec c6DB 100 "shop1" (by simp [c6DB])).2 "cust6").2⟩

theorem getOrCreateParticipant_idempotent_witness :
    getActiveChallenge c2DB 100 "shop1" = some demoChallenge ∧
    findParticipant c2DB demoChallenge.id "cust5" = none ∧
    (∃ p,
      (getOrCreateParticipant c2DB 100 "shop1" "cust5" "eve@example.com"
        (some "Eve") (some "N")).1 = some p ∧
      (getOrCreateParticipant c2DB 100 "shop1" "cust5" "eve@example.com"
        (some "Eve") (some "N")).2.participants = c2DB.participants ++ [p] ∧
      p.email = "eve@example.com" ∧ p.firstName = some "Eve" ∧
      p.lastName = some "N" ∧ p.challengeId = demoChallenge.id ∧
      p.customerId = "cust5" ∧
      getOrCreateParticipant
          (getOrCreateParticipant c2DB 100 "shop1" "cust5" "eve@example.com"
            (some "Eve") (some "N")).2
          100 "shop1" "cust5" "other@example.com" (some "Other") (some "X") =
        (some p,
         (getOrCreateParticipant c2DB 100 "shop1" "cust5" "eve@example.com"
           (some "Eve") (some "N")).2)) :=
  ⟨rfl, rfl,
   getOrCreateParticipant_idempotent c2DB 100 "shop1" "cust5" "eve@example.com"
     "other@example.com" (some "Eve") (some "N") (some "Other") (some "X")
     demoChallenge rfl rfl⟩

/-- Result shape `{ valid, error? }` of the validators in validation.ts. -/
structure ValidationResult where
  valid : Bool
  error : Option String
deriving DecidableEq, Repr

/-- The `unit` parameter of `validateWeight` (defaults to `"lbs"` at call
sites). -/
inductive WeightUnit where
  | lbs
  | kg
deriving DecidableEq, Repr

def WeightUnit.label : WeightUnit → String
  | .lbs => "lbs"
  | .kg => "kg"

/-- `validateWeight(weight, unit)` from validation.ts.  The `weight` argument
is the number (or the `parseFloat` of the string) the source receives: `none`
models `NaN`, so the `isNaN` guard is the `none` branch. -/
def validateWeight (weight : Option Rat) (unit : WeightUnit) : ValidationResult :=
  match weight with
  | none => { valid := false, error := some "Weight must be a number" }
  | some weightNum =>
    if weightNum ≤ 0 then
      { valid := false, error := some "Weight must be greater than 0" }
    else
      let min : Rat := match unit with | .lbs => 50 | .kg => 22
      let max : Rat := match unit with | .lbs => 1000 | .kg => 450
      if weightNum < min then
        { valid := false,
          error := some ("Weight must be at least " ++ toString min ++ " " ++ unit.label) }
      else if max < weightNum then
        { valid := false,
          error := some ("Weight must be less than " ++ toString max ++ " " ++ unit.label) }
      else
        { valid := true, error := none }

/-- C9: in pounds, `validateWeight` accepts exactly the range 50 ≤ w ≤ 1000,
both bounds included (despite the over-limit message saying "less than 1000
lbs"); `NaN` inputs fail with "Weight must be a number" and non-positive
values with "Weight must be greater than 0". -/
theorem validateWeight_spec (q : Rat) :
    ((validateWeight (some q) WeightUnit.lbs).valid = true ↔ (50 ≤ q ∧ q ≤ 1000)) ∧
    validateWeight none WeightUnit.lbs =
      { valid := false, error := some "Weight must be a number" } ∧
    (q ≤ 0 → validateWeight (some q) WeightUnit.lbs =
      { valid := false, error := some "Weight must be greater than 0" }) ∧
    (validateWeight (some 50) WeightUnit.lbs).valid = true ∧
    (validateWeight (some 1000) WeightUnit.lbs).valid = true ∧
    (1000 < q → validateWeight (some q) WeightUnit.lbs =
      { valid := false, error := some "Weight must be less than 1000 lbs" }) := by
  refine ⟨?_, rfl, ?_, by norm_num [validateWeight], by norm_num [validateWeight], ?_⟩
  · simp only [validateWeight]
    by_cases h0 : q ≤ 0
    · simp only [if_pos h0]
      constructor
      · intro h; cases h
      · rintro ⟨h50, _⟩; linarith
    · simp only [if_neg h0]
      by_cases h50 : q < 50
      · simp only [if_pos h50]
        constructor
        · intro h; cases h
        · rintro ⟨h, _⟩; linarith
      · simp only [if_neg h50]
        by_cases h1000 : (1000 : Rat) < q
        · simp only [if_pos h1000]
          constructor
          · intro h; cases h
          · rintro ⟨_, h⟩; linarith
        · simp only [if_neg h1000]
          exact ⟨fun _ => ⟨le_of_not_lt h50, le_of_not_lt h1000⟩, fun _ => trivial⟩
  · intro h0
    simp only [validateWeight, if_pos h0]
  · intro h1000
    have h0 : ¬ q ≤ 0 := by linarith
    have h50 : ¬ q < 50 := by linarith
    simp only [validateWeight, if_neg h0, if_neg h50, if_pos h1000]
    rfl

theorem validateWeight_spec_witness :
    ((0 : Rat) ≤ 0 ∧ validateWeight (some 0) WeightUnit.lbs =
      { valid := false, error := some "Weight must be greater than 0" }) ∧
    ((1000 : Rat) < 1001 ∧ validateWeight (some 1001) WeightUnit.lbs =
      { valid := false, error := some "Weight must be less than 1000 lbs" }) :=
  ⟨⟨le_refl 0, (validateWeight_spec 0).2.2.1 (le_refl 0)⟩,
   ⟨by norm_num, (validateWeight_spec 1001).2.2.2.2.2 (by norm_num)⟩⟩

/-- `validateDateRange(startDate, endDate)` from validation.ts.  Each date is
the parsed timestamp; `none` models `isNaN(date.getTime())`. -/
def validateDateRange (startDate endDate : Option Int) : ValidationResult :=
  match startDate with
  | none => { valid := false, error := some "Invalid start date" }
  | some start =>
    match endDate with
    | none => { valid := false, error := some "Invalid end date" }
    | some stop =>
      if stop ≤ start then
        { valid := false, error := some "End date must be after start date" }
      else
        { valid := true, error := none }

/-- Form data of `validateAdminChallengeForm`. -/
structure AdminChallengeFormData where
  name : String
  description : Option String
  startDate : Option Int
  endDate : Option Int
deriving DecidableEq, Repr

/-- `validateAdminChallengeForm(data)` from validation.ts: field-keyed error
record modelled as an association list, `valid` iff it is empty. -/
def validateAdminChallengeForm (data : AdminChallengeFormData) :
    Bool × List (String × String) :=
  let nameErrors :=
    if data.name.trim = "" then [("name", "Challenge name is required")]
    else if 100 < data.name.length then
      [("name", "Challenge name must be less than 100 characters")]
    else []
  let descriptionErrors :=
    match data.description with
    | some d =>
      if 1000 < d.length then
        [("description", "Description must be less than 1000 characters")]
      else []
    | none => []
  let dateValidation := validateDateRange data.startDate data.endDate
  let dateErrors :=
    if dateValidation.valid = false then
      [("dates", dateValidation.error.getD "")]
    else []
  let errors := nameErrors ++ descriptionErrors ++ dateErrors
  (decide (errors = []), errors)

/-- C10: for parseable dates, `validateDateRange` rejects with "End date must
be after start date" exactly when start ≥ end, so equal dates are rejected and
`validateAdminChallengeForm` never validates a zero-duration challenge. -/
theorem validateDateRange_spec (s e : Int) :
    (validateDateRange (some s) (some e) =
      { valid := false, error := some "End date must be after start date" } ↔ e ≤ s) ∧
    ((validateDateRange (some s) (some e)).valid = true ↔ s < e) ∧
    (s = e → ∀ (name : String) (description : Option String),
      (validateAdminChallengeForm
        { name := name, description := description,
          startDate := some s, endDate := some e }).1 = false) := by
  refine ⟨?_, ?_, ?_⟩
  · simp only [validateDateRange]
    by_cases h : e ≤ s
    · simp [h]
    · simp only [if_neg h]
      constructor
      · intro hcontra
        cases hcontra
      · intro h'; exact absurd h' h
  · simp only [validateDateRange]
    by_cases h : e ≤ s
    · simp [h]
    · simp [h]
      omega
  · intro hse name description
    subst hse
    have hdates : validateDateRange (some s) (some s) =
        { valid := false, error := some "End date must be after start date" } := by
      simp [validateDateRange]
    simp only [validateAdminChallengeForm, hdates]
    simp

theorem validateDateRange_spec_witness :
    ((5 : Int) = 5 ∧
      (validateAdminChallengeForm
        { name := "Summer Melt", description := none,
          startDate := some 5, endDate := some 5 }).1 = false) ∧
    (validateDateRange (some 5) (some 5) =
      { valid := false, error := some "End date must be after start date" }) :=
  ⟨⟨rfl, (validateDateRange_spec 5 5).2.2 rfl "Summer Melt" none⟩,
   (validateDateRange_spec 5 5).1.mpr (le_refl 5)⟩

def MAX_FILE_SIZE : Rat := 5 * 1024 * 1024

def ALLOWED_MIME_TYPES : List String :=
  ["image/jpeg", "image/jpg", "image/png", "image/webp"]

/-- Request body shared by both upload adapters (s3.server.ts and
cloudinary.server.ts declare the identical shape). -/
structure PresignedUrlRequest where
  fileName : String
  fileType : String
  fileSize : Rat
  submissionId : String
  order : Rat
deriving DecidableEq, Repr

/-- Successful result of `generatePresignedUrl`.  The `uploadUrl` the source
additionally returns is the AWS SDK's signature over `key`, an external call;
the validation outcome and the returned target are what is modelled. -/
structure PresignedUrlResponse where
  key : String
  publicUrl : String
deriving DecidableEq, Repr

/-- The regex replace `[^a-zA-Z0-9.-] -> "_"` applied to file names. -/
def sanitizeFileNameChar (c : Char) : Char :=
  if c.isAlpha ∨ c.isDigit ∨ c = '.' ∨ c = '-' then c else '_'

/-- `generatePresignedUrl(request)` from s3.server.ts.  `bucket` and `region`
stand for the environment configuration and `timestamp` for `Date.now()`;
a thrown validation `Error` is `Except.error` with the thrown message. -/
def generatePresignedUrl (bucket region : String) (timestamp : Int)
    (request : PresignedUrlRequest) : Except String PresignedUrlResponse :=
  if MAX_FILE_SIZE < request.fileSize then
    Except.error "File size exceeds maximum of 5MB"
  else if request.fileType ∉ ALLOWED_MIME_TYPES then
    Except.error ("File type " ++ request.fileType ++
      " is not allowed. Allowed types: " ++ String.intercalate ", " ALLOWED_MIME_TYPES)
  else if request.order < 1 ∨ 3 < request.order then
    Except.error "Photo order must be between 1 and 3"
  else
    let sanitizedFileName := request.fileName.map sanitizeFileNameChar
    let key := "challenges/" ++ request.submissionId ++ "/photo-" ++
      toString request.order ++ "-" ++ toString timestamp ++ "-" ++ sanitizedFileName
    Except.ok
      { key := key,
        publicUrl := "https://" ++ bucket ++ ".s3." ++ region ++
          ".amazonaws.com/" ++ key }

/-- The regex replace stripping a final `.extension` (`\.[^.]+$`) used by the
Cloudinary adapter on the sanitized file name. -/
def stripExtension (s : String) : String :=
  let rev := s.data.reverse
  let tail := rev.takeWhile (fun c => c ≠ '.')
  if tail.length = 0 ∨ tail.length = rev.length then s
  else String.mk ((rev.drop (tail.length + 1)).reverse)

/-- Successful result of `generateCloudinaryUpload`.  The `signature` and
`apiKey` fields of the source are the external signing call and configuration;
the validation outcome and the generated target are what is modelled. -/
structure CloudinaryUploadResponse where
  uploadUrl : String
  folder : String
  publicId : String
  timestamp : Int
deriving DecidableEq, Repr

/-- `generateCloudinaryUpload(request)` from cloudinary.server.ts, with the
same conventions as `generatePresignedUrl`. -/
def generateCloudinaryUpload (cloudName : String) (timestamp : Int)
    (request : PresignedUrlRequest) : Except String CloudinaryUploadResponse :=
  if MAX_FILE_SIZE < request.fileSize then
    Except.error "File size exceeds maximum of 5MB"
  else if request.fileType ∉ ALLOWED_MIME_TYPES then
    Except.error ("File type " ++ request.fileType ++
      " is not allowed. Allowed types: " ++ String.intercalate ", " ALLOWED_MIME_TYPES)
  else if request.order < 1 ∨ 3 < request.order then
    Except.error "Photo order must be between 1 and 3"
  else
    let sanitizedFileName := stripExtension (request.fileName.map sanitizeFileNameChar)
    let folder := "challenges/" ++ request.submissionId
    let publicId := "photo-" ++ toString request.order ++ "-" ++
      toString timestamp ++ "-" ++ sanitizedFileName
    Except.ok
      { uploadUrl := "https://api.cloudinary.com/v1_1/" ++ cloudName ++ "/image/upload",
        folder := folder, publicId := publicId, timestamp := timestamp }

/-- Whether an adapter call issued an upload target (did not throw). -/
def issued {α : Type} : Except String α → Bool
  | Except.ok _ => true
  | Except.error _ => false

/-- C7, counterexample: both adapters issue an upload target for
`order = 3/2`, which is not one of 1, 2 or 3 — the code range-checks the
order instead of requiring it to be exactly 1, 2 or 3. -/
theorem uploadAdapters_order_counterexample :
    issued (generatePresignedUrl "bucket" "us-east-1" 0
      { fileName := "a.jpg", fileType := "image/jpeg", fileSize := 100,
        submissionId := "sub", order := 3/2 }) = true ∧
    issued (generateCloudinaryUpload "cloud" 0
      { fileName := "a.jpg", fileType := "image/jpeg", fileSize := 100,
        submissionId := "sub", order := 3/2 }) = true ∧
    ¬((3 : Rat)/2 = 1 ∨ (3 : Rat)/2 = 2 ∨ (3 : Rat)/2 = 3) := by
  refine ⟨?_, ?_, by norm_num⟩
  · norm_num [generatePresignedUrl, MAX_FILE_SIZE, ALLOWED_MIME_TYPES, issued]
  · norm_num [generateCloudinaryUpload, MAX_FILE_SIZE, ALLOWED_MIME_TYPES, issued]

/-- C7, amended: each adapter issues an upload target exactly when the MIME
type is allow-listed, the file size is at most 5 MB (5·1024·1024 bytes, the
boundary accepted) and the order lies in the closed range [1, 3]; otherwise it
fails synchronously with a validation error and no target is issued. -/
theorem uploadAdapters_validation (bucket region cloudName : String)
    (timestamp : Int) (request : PresignedUrlRequest) :
    (issued (generatePresignedUrl bucket region timestamp request) = true ↔
      (request.fileType ∈ ALLOWED_MIME_TYPES ∧ request.fileSize ≤ MAX_FILE_SIZE ∧
        1 ≤ request.order ∧ request.order ≤ 3)) ∧
    (issued (generateCloudinaryUpload cloudName timestamp request) = true ↔
      (request.fileType ∈ ALLOWED_MIME_TYPES ∧ request.fileSize ≤ MAX_FILE_SIZE ∧
        1 ≤ request.order ∧ request.order ≤ 3)) := by
  constructor
  · unfold generatePresignedUrl
    by_cases hsize : MAX_FILE_SIZE < request.fileSize
    · rw [if_pos hsize]
      simp only [issued, Bool.false_eq_true, false_iff]
      rintro ⟨-, hle, -, -⟩
      exact absurd hsize (not_lt.mpr hle)
    · rw [if_neg hsize]
      by_cases htype : request.fileType ∈ ALLOWED_MIME_TYPES
      · rw [if_neg (not_not_intro htype)]
        by_cases horder : request.order < 1 ∨ 3 < request.order
        · rw [if_pos horder]
          simp only [issued, Bool.false_eq_true, false_iff]
          rintro ⟨-, -, h1, h3⟩
          rcases horder with h | h
          · exact absurd h (not_lt.mpr h1)
          · exact absurd h (not_lt.mpr h3)
        · rw [if_neg horder]
          simp only [issued, true_iff]
          push_neg at horder
          exact ⟨htype, not_lt.mp hsize, horder.1, horder.2⟩
      · rw [if_pos htype]
        simp only [issued, Bool.false_eq_true, false_iff]
        rintro ⟨hmem, -, -, -⟩
        exact absurd hmem htype
  · unfold generateCloudinaryUpload
    by_cases hsize : MAX_FILE_SIZE < request.fileSize
    · rw [if_pos hsize]
      simp only [issued, Bool.false_eq_true, false_iff]
      rintro ⟨-, hle, -, -⟩
      exact absurd hsize (not_lt.mpr hle)
    · rw [if_neg hsize]
      by_cases htype : request.fileType ∈ ALLOWED_MIME_TYPES
      · rw [if_neg (not_not_intro htype)]
        by_cases horder : request.order < 1 ∨ 3 < request.order
        · rw [if_pos horder]
          simp only [issued, Bool.false_eq_true, false_iff]
          rintro ⟨-, -, h1, h3⟩
          rcases horder with h | h
          · exact absurd h (not_lt.mpr h1)
          · exact absurd h (not_lt.mpr h3)
        · rw [if_neg horder]
          simp only [issued, true_iff]
          push_neg at horder
          exact ⟨htype, not_lt.mp hsize, horder.1, horder.2⟩
      · rw [if_pos htype]
        simp only [issued, Bool.false_eq_true, false_iff]
        rintro ⟨hmem, -, -, -⟩
        exact absurd hmem htype

/-- `validateChallengeForm(data)` from validation.ts as the form actions call
it: they pass only `weight` (as a string), so `notes` is optional here and the
client-side `File[]` photos branch never runs (`data.photos` is `undefined`). -/
def validateChallengeForm (weight : Option Rat) (notes : Option String) :
    Bool × List (String × String) :=
  let weightValidation := validateWeight weight WeightUnit.lbs
  let weightErrors :=
    if weightValidation.valid = false then
      [("weight", weightValidation.error.getD "")]
    else []
  let notesErrors :=
    match notes with
    | some n =>
      if 500 < n.length then [("notes", "Notes must be less than 500 characters")]
      else []
    | none => []
  let errors := weightErrors ++ notesErrors
  (decide (errors = []), errors)

theorem validateChallengeForm_valid (w : Option Rat) :
    (validateChallengeForm w none).1 = (validateWeight w WeightUnit.lbs).valid := by
  simp only [validateChallengeForm]
  rcases h : validateWeight w WeightUnit.lbs with ⟨b, e⟩
  cases b <;> simp

/-- One entry of the `photos` JSON array posted by the client. -/
structure PhotoInput where
  order : Rat
  key : String
  publicUrl : String
  fileName : String
  fileSize : Rat
  mimeType : String
  orientation : String
deriving DecidableEq, Repr

/-- Form data of the start-challenge action.  `""` models a missing or empty
(JS-falsy) text field; `weight` is the `parseFloat` of the weight field;
`photos = none` models a photos payload that fails to parse as a JSON array. -/
structure StartFormInput where
  email : String
  firstName : String
  lastName : String
  weight : Option Rat
  photos : Option (List PhotoInput)
deriving DecidableEq, Repr

/-- The customer session `requireCustomer` resolves (none = not logged in,
the thrown error being caught). -/
structure SessionCustomer where
  customerId : String
  email : String
  firstName : Option String
  lastName : Option String
  shop : String
deriving DecidableEq, Repr

/-- The record `lookupCustomerByEmail` returns, with `totalSpent` already
parsed. -/
structure ShopifyCustomer where
  id : String
  firstName : Option String
  lastName : Option String
  ordersCount : Option Int
  totalSpent : Option Rat
deriving DecidableEq, Repr

/-- External collaborators of the start action: session, Shopify customer
lookup (none = lookup threw or found nothing) and the fallback shop domain
from the environment. -/
structure StartEnv where
  sessionCustomer : Option SessionCustomer
  shopifyCustomer : Option ShopifyCustomer
  defaultShop : String
deriving DecidableEq, Repr

/-- Responses a form action can produce: a 400 with field-keyed validation
errors, a 400/500 with a `general` error message, or a redirect. -/
inductive ActionResult where
  | validationError (errors : List (String × String))
  | generalError (message : String)
  | redirectTo (location : String)
deriving DecidableEq, Repr

/-- The start-challenge form `action`, with the store threaded explicitly.
Validation mirrors the source order: email, names, weight
(`validateChallengeForm`), photos JSON; then identity resolution, then
`getOrCreateParticipant`, the START submission, the photo rows, and the
participant update to IN_PROGRESS stamping `startWeight`/`startedAt`.
The `getD 0` on the weight is dead code: the weight validation guarantees
`some`. -/
def startAction (db : DB) (now : Int) (env : StartEnv) (input : StartFormInput) :
    ActionResult × DB :=
  if input.email = "" then
    (ActionResult.validationError [("email", "Email is required")], db)
  else if input.firstName = "" ∨ input.lastName = "" then
    (ActionResult.validationError
      [("firstName", if input.firstName = "" then "First name is required" else ""),
       ("lastName", if input.lastName = "" then "Last name is required" else "")], db)
  else
    let validation := validateChallengeForm input.weight none
    if validation.1 = false then
      (ActionResult.validationError validation.2, db)
    else
      match input.photos with
      | none =>
        (ActionResult.validationError
          [("photos", "Invalid photo data. Please upload 3 photos.")], db)
      | some photos =>
        if photos.length ≠ 3 then
          (ActionResult.validationError
            [("photos", "Invalid photo data. Please upload 3 photos.")], db)
        else
          let shop := match env.sessionCustomer with
            | some c => c.shop
            | none => env.defaultShop
          let sessionCustomerId := Option.map (fun c => c.customerId) env.sessionCustomer
          let sessionFirstName := Option.bind env.sessionCustomer (fun c => c.firstName)
          let sessionLastName := Option.bind env.sessionCustomer (fun c => c.lastName)
          let resolved := match env.shopifyCustomer with
            | some sc =>
              (some sc.id,
               sessionFirstName <|> sc.firstName <|> some input.firstName,
               sessionLastName <|> sc.lastName <|> some input.lastName,
               sc.ordersCount, sc.totalSpent)
            | none =>
              (sessionCustomerId,
               sessionFirstName <|> some input.firstName,
               sessionLastName <|> some input.lastName,
               (none : Option Int), (none : Option Rat))
          let customerId := resolved.1.getD ("email:" ++ input.email)
          match getOrCreateParticipant db now shop customerId input.email
            resolved.2.1 resolved.2.2.1 with
          | (none, db1) => (ActionResult.generalError "No active challenge found", db1)
          | (some participant, db1) =>
            let submission : Submission :=
              { id := db1.nextId, participantId := participant.id, shop := shop,
                type := SubmissionType.START, weight := input.weight.getD 0,
                submittedAt := now }
            let db2 := { db1 with
              submissions := db1.submissions ++ [submission],
              nextId := db1.nextId + 1 }
            let photoRows := photos.map (fun photo =>
              ({ submissionId := submission.id, shop := shop,
                 shopifyUrl := photo.publicUrl, fileName := photo.fileName,
                 fileSize := photo.fileSize, mimeType := photo.mimeType,
                 order := photo.order, orientation := photo.orientation } : Photo))
            let db3 := { db2 with photos := db2.photos ++ photoRows }
            let db4 := { db3 with
              participants := db3.participants.map (fun p =>
                if p.id = participant.id then
                  { p with status := ParticipantStatus.IN_PROGRESS,
                           startWeight := some (input.weight.getD 0),
                           startedAt := some now,
                           ordersCount := resolved.2.2.2.1,
                           totalSpent := resolved.2.2.2.2 }
                else p) }
            (ActionResult.redirectTo "/customer/challenge/success?type=start", db4)

/-- Form data of the end-challenge action (it reads no name fields). -/
structure EndFormInput where
  email : String
  weight : Option Rat
  photos : Option (List PhotoInput)
deriving DecidableEq, Repr

/-- External collaborators of the end action. -/
structure EndEnv where
  sessionCustomer : Option SessionCustomer
  shopifyCustomer : Option ShopifyCustomer
deriving DecidableEq, Repr

/-- Prisma `findFirst` with `orderBy createdAt desc`: first row in table order
whose `createdAt` is maximal. -/
def mostRecentByCreatedAt : List Participant → Option Participant
  | [] => none
  | p :: ps =>
    match mostRecentByCreatedAt ps with
    | none => some p
    | some q => if p.createdAt < q.createdAt then some q else some p

/-- The end action's participant query: most recent row with this email and
shop whose status is IN_PROGRESS. -/
def findInProgressParticipant (db : DB) (email shop : String) : Option Participant :=
  mostRecentByCreatedAt (db.participants.filter (fun p =>
    p.email == email && p.shop == shop && p.status == ParticipantStatus.IN_PROGRESS))

/-- The end-challenge form `action`: email, weight and photos validation, then
the IN_PROGRESS participant lookup by email, the END submission, the photo
rows, and the participant update to COMPLETED stamping
`endWeight`/`completedAt`. -/
def endAction (db : DB) (now : Int) (env : EndEnv) (input : EndFormInput) :
    ActionResult × DB :=
  if input.email = "" then
    (ActionResult.validationError [("email", "Email is required")], db)
  else
    let validation := validateChallengeForm input.weight none
    if validation.1 = false then
      (ActionResult.validationError validation.2, db)
    else
      match input.photos with
      | none =>
        (ActionResult.validationError
          [("photos", "Invalid photo data. Please upload 3 photos.")], db)
      | some photos =>
        if photos.length ≠ 3 then
          (ActionResult.validationError
            [("photos", "Invalid photo data. Please upload 3 photos.")], db)
        else
          let shop := match env.sessionCustomer with
            | some c => c.shop
            | none => "bowmar-nutrition-test.myshopify.com"
          let orderData := match env.shopifyCustomer with
            | some sc => (sc.ordersCount, sc.totalSpent)
            | none => ((none : Option Int), (none : Option Rat))
          match findInProgressParticipant db input.email shop with
          | none =>
            (ActionResult.generalError
              "No active challenge found for this email. Please start the challenge first.",
             db)
          | some participant =>
            let submission : Submission :=
              { id := db.nextId, participantId := participant.id, shop := shop,
                type := SubmissionType.END, weight := input.weight.getD 0,
                submittedAt := now }
            let db2 := { db with
              submissions := db.submissions ++ [submission],
              nextId := db.nextId + 1 }
            let photoRows := photos.map (fun photo =>
              ({ submissionId := submission.id, shop := shop,
                 shopifyUrl := photo.publicUrl, fileName := photo.fileName,
                 fileSize := photo.fileSize, mimeType := photo.mimeType,
                 order := photo.order, orientation := photo.orientation } : Photo))
            let db3 := { db2 with photos := db2.photos ++ photoRows }
            let db4 := { db3 with
              participants := db3.participants.map (fun p =>
                if p.id = participant.id then
                  { p with status := ParticipantStatus.COMPLETED,
                           endWeight := some (input.weight.getD 0),
                           completedAt := some now,
                           ordersCount := orderData.1,
                           totalSpent := orderData.2 }
                else p) }
            (ActionResult.redirectTo "/customer/challenge/success?type=end", db4)

/-- C8: any start-form or end-form submission rejected by the input
validations (missing email, missing name on the start form, invalid weight,
photo list absent or not exactly 3 entries) gets a field-keyed error response
and leaves the store untouched: rows are written only after every validation
passes. -/
theorem actionsValidateBeforeWrite (db : DB) (now : Int) :
    (∀ (env : StartEnv) (input : StartFormInput),
      (input.email = "" ∨ input.firstName = "" ∨ input.lastName = "" ∨
        (validateWeight input.weight WeightUnit.lbs).valid = false ∨
        input.photos = none ∨ (∃ ps, input.photos = some ps ∧ ps.length ≠ 3)) →
      ∃ errors, startAction db now env input =
        (ActionResult.validationError errors, db)) ∧
    (∀ (env : EndEnv) (input : EndFormInput),
      (input.email = "" ∨
        (validateWeight input.weight WeightUnit.lbs).valid = false ∨
        input.photos = none ∨ (∃ ps, input.photos = some ps ∧ ps.length ≠ 3)) →
      ∃ errors, endAction db now env input =
        (ActionResult.validationError errors, db)) := by
  constructor
  · intro env input hfail
    simp only [startAction]
    by_cases h1 : input.email = ""
    · rw [if_pos h1]
      exact ⟨_, rfl⟩
    · rw [if_neg h1]
      by_cases h2 : input.firstName = "" ∨ input.lastName = ""
      · rw [if_pos h2]
        exact ⟨_, rfl⟩
      · rw [if_neg h2]
        by_cases h3 : (validateChallengeForm input.weight none).1 = false
        · rw [if_pos h3]
          exact ⟨_, rfl⟩
        · rw [if_neg h3]
          rcases hfail with h | h | h | h | h | h
          · exact absurd h h1
          · exact absurd (Or.inl h) h2
          · exact absurd (Or.inr h) h2
          · exfalso
            apply h3
            rw [validateChallengeForm_valid, h]
          · simp only [h]
            exact ⟨_, rfl⟩
          · obtain ⟨ps, hps, hlen⟩ := h
            simp only [hps]
            rw [if_pos hlen]
            exact ⟨_, rfl⟩
  · intro env input hfail
    simp only [endAction]
    by_cases h1 : input.email = ""
    · rw [if_pos h1]
      exact ⟨_, rfl⟩
    · rw [if_neg h1]
      by_cases h3 : (validateChallengeForm input.weight none).1 = false
      · rw [if_pos h3]
        exact ⟨_, rfl⟩
      · rw [if_neg h3]
        rcases hfail with h | h | h | h
        · exact absurd h h1
        · exfalso
          apply h3
          rw [validateChallengeForm_valid, h]
        · simp only [h]
          exact ⟨_, rfl⟩
        · obtain ⟨ps, hps, hlen⟩ := h
          simp only [hps]
          rw [if_pos hlen]
          exact ⟨_, rfl⟩

def c8StartInput : StartFormInput :=
  { email := "", firstName := "Ada", lastName := "L", weight := none,
    photos := none }

def c8EndInput : EndFormInput :=
  { email := "", weight := none, photos := none }

def c8StartEnv : StartEnv :=
  { sessionCustomer := none, shopifyCustomer := none, defaultShop := "shop1" }

def c8EndEnv : EndEnv :=
  { sessionCustomer := none, shopifyCustomer := none }

theorem actionsValidateBeforeWrite_witness :
    c8StartInput.email = "" ∧
    (∃ errors, startAction c1DB 100 c8StartEnv c8StartInput =
      (ActionResult.validationError errors, c1DB)) ∧
    c8EndInput.email = "" ∧
    (∃ errors, endAction c1DB 100 c8EndEnv c8EndInput =
      (ActionResult.validationError errors, c1DB)) :=
  ⟨rfl,
   (actionsValidateBeforeWrite c1DB 100).1 c8StartEnv c8StartInput (Or.inl rfl),
   rfl,
   (actionsValidateBeforeWrite c1DB 100).2 c8EndEnv c8EndInput (Or.inl rfl)⟩

def c4Participant : Participant :=
  { id := 2, challengeId := 1, shop := "shop1",
    customerId := "email:carol@example.com", email := "carol@example.com",
    firstName := some "Carol", lastName := some "K",
    status := ParticipantStatus.COMPLETED, startWeight := some 210,
    endWeight := some 200, startedAt := some 10, completedAt := some 20,
    ordersCount := none, totalSpent := none, createdAt := 5 }

def c4StartSubmission : Submission :=
  { id := 3, participantId := 2, shop := "shop1", type := SubmissionType.START,
    weight := 210, submittedAt := 10 }

def c4EndSubmission : Submission :=
  { id := 4, participantId := 2, shop := "shop1", type := SubmissionType.END,
    weight := 200, submittedAt := 20 }

def c4DB : DB :=
  { challenges := [demoChallenge], participants := [c4Participant],
    submissions := [c4StartSubmission, c4EndSubmission], photos := [],
    nextId := 10 }

def c4Photos : List PhotoInput :=
  [{ order := 1, key := "k1", publicUrl := "u1", fileName := "f1.jpg",
     fileSize := 100, mimeType := "image/jpeg", orientation := "FRONT" },
   { order := 2, key := "k2", publicUrl := "u2", fileName := "f2.jpg",
     fileSize := 100, mimeType := "image/jpeg", orientation := "SIDE" },
   { order := 3, key := "k3", publicUrl := "u3", fileName := "f3.jpg",
     fileSize := 100, mimeType := "image/jpeg", orientation := "BACK" }]

def c4Input : StartFormInput :=
  { email := "carol@example.com", firstName := "Carol", lastName := "K",
    weight := some 205, photos := some c4Photos }

def c4Env : StartEnv :=
  { sessionCustomer := none, shopifyCustomer := none, defaultShop := "shop1" }

/-- C4: the start action never consults `canStartChallenge` (the import is
unused), so a participant who already COMPLETED the challenge can submit the
start form again with valid data: the action succeeds and moves the status
back from COMPLETED to IN_PROGRESS — a regression the participant state
machine forbids. -/
theorem startActionRegressesCompletedStatus :
    c4Participant.status = ParticipantStatus.COMPLETED ∧
    (startAction c4DB 100 c4Env c4Input).1 =
      ActionResult.redirectTo "/customer/challenge/success?type=start" ∧
    (startAction c4DB 100 c4Env c4Input).2.participants.map Participant.status =
      [ParticipantStatus.IN_PROGRESS] :=
  ⟨rfl, rfl, rfl⟩

end MeltChallenge
